import Mathlib

/-!
Verification of the aigallery backend (Django) against its natural-language
specification.  The relevant Python code is shallowly embedded as executable
Lean definitions:

* `src/users/models.py` — `User` (credit balance), `CreditUsage` (ledger),
  `User.use_credit`, `User.add_credits`, `Friendship`, `FriendRequest`
  (`accept`, `reject`), `UserManager._create_user` (registration).
* `src/ai_image_converter/models.py` / `views.py` / `utils.py` — `AIImage`
  conversion jobs, `AIImageViewSet.create`, `AIImageViewSet.regenerate`,
  `convert_to_ai_image` (the background worker).
* `src/users/views.py` — `FriendRequestViewSet.create` / `.accept` / `.reject`.
* `src/gallery/models.py` / `views.py` — `Image`, `Like`,
  `VisibilityPermission.has_object_permission`, `LikeViewSet.create`,
  `LikeViewSet.unlike`.

Database rows are lists of records, each Django `save` is an explicit state
update, and the external OpenAI image transform is an oracle value of type
`Except String String` (failure text or converted file name), matching the
black-box `transform -> image_bytes | failure(reason)` interface.
-/

namespace AIGallery

/-- One row of `User` (src/users/models.py lines 40-59).  Only the fields the
claims mention are kept: the primary key, the unique email and the
`credits = models.PositiveIntegerField(default=10)` balance. -/
structure UserRec where
  id : Nat
  email : String
  credits : Nat
deriving DecidableEq

/-- `User.credits` has `default=10` (src/users/models.py lines 49-51). -/
def DEFAULT_CREDITS : Nat := 10

/-- One row of `CreditUsage` (src/users/models.py lines 160-182):
`{user, amount (PositiveIntegerField), is_usage (True: debit, False: credit),
reason}`. -/
structure CreditUsage where
  user : Nat
  amount : Nat
  is_usage : Bool
  reason : String
deriving DecidableEq

/-- `User.use_credit` (src/users/models.py lines 61-84): returns `False`
without any mutation when `self.credits < amount`; otherwise subtracts
`amount` from the balance, appends one `CreditUsage` row with
`is_usage=True`, and returns `True`. -/
def use_credit (u : UserRec) (ledger : List CreditUsage) (amount : Nat)
    (reason : String) : Bool × UserRec × List CreditUsage :=
  if u.credits < amount then
    (false, u, ledger)
  else
    (true, { u with credits := u.credits - amount },
      ledger ++ [{ user := u.id, amount := amount, is_usage := true, reason := reason }])

/-- `User.add_credits` (src/users/models.py lines 86-102): adds `amount` to
the balance, appends one `CreditUsage` row with `is_usage=False`, and
returns `True`. -/
def add_credits (u : UserRec) (ledger : List CreditUsage) (amount : Nat)
    (reason : String) : Bool × UserRec × List CreditUsage :=
  (true, { u with credits := u.credits + amount },
    ledger ++ [{ user := u.id, amount := amount, is_usage := false, reason := reason }])

/-- Sum of a user's ledger credit entries (`is_usage=False`). -/
def ledgerCredits (ledger : List CreditUsage) (uid : Nat) : Nat :=
  ((ledger.filter (fun e => e.user == uid && !e.is_usage)).map (fun e => e.amount)).sum

/-- Sum of a user's ledger debit entries (`is_usage=True`). -/
def ledgerDebits (ledger : List CreditUsage) (uid : Nat) : Nat :=
  ((ledger.filter (fun e => e.user == uid && e.is_usage)).map (fun e => e.amount)).sum

/-- `AIImage.status` choices (src/ai_image_converter/models.py lines 54-64). -/
inductive JobStatus where
  | pending
  | processing
  | completed
  | failed
deriving DecidableEq

/-- One row of `AIImage` (src/ai_image_converter/models.py lines 14-77):
owner, original image, nullable converted image, optional prompt, model
identifier, status (default `pending`) and nullable error message.  Image
fields are kept as storage references (file names). -/
structure AIImage where
  id : Nat
  user : Nat
  original_image : String
  converted_image : Option String
  prompt : Option String
  model_used : String
  status : JobStatus
  error_message : Option String
deriving DecidableEq

/-- The database state the conversion/credit claims range over: the `User`
rows, the append-only `CreditUsage` rows and the `AIImage` rows. -/
structure GState where
  users : List UserRec
  ledger : List CreditUsage
  jobs : List AIImage
deriving DecidableEq

/-- Primary-key lookup of a user row (how the identity layer resolves
`request.user`). -/
def findUser (users : List UserRec) (uid : Nat) : Option UserRec :=
  users.find? (fun u => u.id == uid)

/-- Writing a mutated user row back (`user.save()`): every row with the same
primary key is replaced by the new record. -/
def saveUser (users : List UserRec) (u : UserRec) : List UserRec :=
  users.map (fun v => if v.id == u.id then u else v)

/-- Registration, `UserManager._create_user` (src/users/models.py lines
11-19) as reached from `RegisterView` / `UserSerializer.create`
(src/users/serializers.py lines 52-67): a new `User` row is appended with the
field default `credits = 10`; no `CreditUsage` row is written. -/
def registerUser (s : GState) (uid : Nat) (email : String) : GState :=
  { s with users := s.users ++ [{ id := uid, email := email, credits := DEFAULT_CREDITS }] }

/-- `User.use_credit` lifted to the full state (src/users/models.py lines
61-84): on `self.credits < amount` the method returns early, so nothing is
saved; otherwise the mutated user row is saved and the ledger row
appended. -/
def applyUseCredit (s : GState) (u : UserRec) (amount : Nat) (reason : String) :
    Bool × GState :=
  if u.credits < amount then
    (false, s)
  else
    let r := use_credit u s.ledger amount reason
    (true, { s with users := saveUser s.users r.2.1, ledger := r.2.2 })

/-- `User.add_credits` lifted to the full state (src/users/models.py lines
86-102); the credit-charge endpoint `CreditChargeSerializer.create`
(src/users/serializers.py lines 204-220) calls this with `amount >= 1`. -/
def applyAddCredits (s : GState) (u : UserRec) (amount : Nat) (reason : String) :
    Bool × GState :=
  let r := add_credits u s.ledger amount reason
  (r.1, { s with users := saveUser s.users r.2.1, ledger := r.2.2 })

/-- Outcome of `AIImageViewSet.create` (src/ai_image_converter/views.py lines
155-178): either HTTP 400 with the owner's current balance, or HTTP 201. -/
inductive CreateResult where
  | insufficient (current_credits : Nat)
  | created (jobId : Nat)
deriving DecidableEq

/-- Observable side effects of a request, in the order the code commits
them to the database. -/
inductive Effect where
  | jobCreated (jobId : Nat)
  | creditDebited (user amount : Nat)
deriving DecidableEq

/-- `AIImageViewSet.create` (src/ai_image_converter/views.py lines 155-186),
the `submit` contract.  In source order: (1) if `user.credits < 1` return
HTTP 400 with `current_credits` and change nothing; (2) `perform_create`
saves a new `AIImage` row in the default status `pending` (the conversion
thread it spawns is modeled as the separate worker steps below); (3) only
then `user.use_credit(amount=1, reason="AI 이미지 변환")` runs.  The effect
trace records the commit order of step (2) and step (3). -/
def aiimage_create (u : UserRec) (s : GState) (jobId : Nat) (original : String)
    (prompt : Option String) (model_used : String) :
    CreateResult × GState × List Effect :=
  if u.credits < 1 then
    (CreateResult.insufficient u.credits, s, [])
  else
    let job : AIImage :=
      { id := jobId, user := u.id, original_image := original,
        converted_image := none, prompt := prompt, model_used := model_used,
        status := JobStatus.pending, error_message := none }
    let s1 : GState := { s with jobs := s.jobs ++ [job] }
    let r := use_credit u s1.ledger 1 "AI 이미지 변환"
    (CreateResult.created jobId,
      { s1 with users := saveUser s1.users r.2.1, ledger := r.2.2 },
      [Effect.jobCreated jobId, Effect.creditDebited u.id 1])

/-- Outcome of `AIImageViewSet.regenerate` (src/ai_image_converter/views.py
lines 286-312): HTTP 400 with the balance, HTTP 404, or HTTP 202
(`conversion started`). -/
inductive RegenerateResult where
  | insufficient (current_credits : Nat)
  | notFound
  | accepted
deriving DecidableEq

/-- `AIImageViewSet.regenerate` (src/ai_image_converter/views.py lines
286-312).  In source order: (1) if `user.credits < 1` return HTTP 400;
(2) `get_object_or_404(AIImage, id=pk, user=user)`; (3) `use_credit(1)`;
(4) spawn the conversion thread (the worker steps below) and return
HTTP 202.  No check of the job's status is performed anywhere. -/
def regenerate (u : UserRec) (s : GState) (jobId : Nat) : RegenerateResult × GState :=
  if u.credits < 1 then
    (RegenerateResult.insufficient u.credits, s)
  else
    match s.jobs.find? (fun j => j.id == jobId && j.user == u.id) with
    | none => (RegenerateResult.notFound, s)
    | some _ =>
      let r := use_credit u s.ledger 1 "AI 이미지 재변환"
      (RegenerateResult.accepted,
        { s with users := saveUser s.users r.2.1, ledger := r.2.2 })

/-- First half of the worker `convert_to_ai_image`
(src/ai_image_converter/utils.py lines 20-23): the job's status is saved as
`processing` before the external call. -/
def workerPickUp (s : GState) (jobId : Nat) : GState :=
  { s with jobs := s.jobs.map (fun j =>
      if j.id == jobId then { j with status := JobStatus.processing } else j) }

/-- Second half of `convert_to_ai_image` (src/ai_image_converter/utils.py
lines 26-73) applied to one job row: on success of the external transform the
converted image and status `completed` are saved together; on any exception
the status becomes `failed` and `error_message = str(e)` is saved verbatim
(the converted image field is not written on failure). -/
def applyOutcome (j : AIImage) (result : Except String String) : AIImage :=
  match result with
  | Except.ok converted =>
      { j with converted_image := some converted, status := JobStatus.completed }
  | Except.error msg =>
      { j with status := JobStatus.failed, error_message := some msg }

/-- Second half of the worker lifted to the state: the external transform's
outcome (`Except.error msg` for an exception whose text is `msg`, `Except.ok
name` for a produced image) is written back to the job row. -/
def workerFinish (s : GState) (jobId : Nat) (result : Except String String) : GState :=
  { s with jobs := s.jobs.map (fun j =>
      if j.id == jobId then applyOutcome j result else j) }

/-- One public operation of the credit/conversion subsystem, as the spec's
observation points list them: registration, debit via `use_credit`, credit
via `add_credits` (credit charging), job submission, resubmission, and the
two database commits of the background worker (spawned by submission,
resubmission or `process_pending_images`). -/
inductive GStep : GState → GState → Prop where
  | register (s : GState) (uid : Nat) (email : String)
      (h : findUser s.users uid = none) :
      GStep s (registerUser s uid email)
  | useCredit (s : GState) (u : UserRec) (amount : Nat) (reason : String)
      (h : findUser s.users u.id = some u) :
      GStep s (applyUseCredit s u amount reason).2
  | addCredits (s : GState) (u : UserRec) (amount : Nat) (reason : String)
      (h : findUser s.users u.id = some u) :
      GStep s (applyAddCredits s u amount reason).2
  | submit (s : GState) (u : UserRec) (jobId : Nat) (original : String)
      (prompt : Option String) (model_used : String)
      (h : findUser s.users u.id = some u) :
      GStep s (aiimage_create u s jobId original prompt model_used).2.1
  | regen (s : GState) (u : UserRec) (jobId : Nat)
      (h : findUser s.users u.id = some u) :
      GStep s (regenerate u s jobId).2
  | pickUp (s : GState) (jobId : Nat) :
      GStep s (workerPickUp s jobId)
  | finish (s : GState) (jobId : Nat) (result : Except String String) :
      GStep s (workerFinish s jobId result)

/-- The empty database. -/
def initState : GState := { users := [], ledger := [], jobs := [] }

/-- States reachable from the empty database through the public
operations. -/
inductive GReach : GState → Prop where
  | init : GReach initState
  | step {s s' : GState} : GReach s → GStep s s' → GReach s'

/-! ### Friendship subsystem (src/users/models.py, src/users/views.py) -/

/-- One row of `Friendship` (src/users/models.py lines 105-116): a directed
edge `user -> friend`. -/
structure Friendship where
  user : Nat
  friend : Nat
deriving DecidableEq

/-- `FriendRequest.STATUS_CHOICES` (src/users/models.py lines 122-126). -/
inductive ReqStatus where
  | pending
  | accepted
  | rejected
deriving DecidableEq

/-- One row of `FriendRequest` (src/users/models.py lines 119-142). -/
structure FriendRequest where
  id : Nat
  sender : Nat
  receiver : Nat
  status : ReqStatus
deriving DecidableEq

/-- The friendship-subsystem state: the `Friendship` rows and the
`FriendRequest` rows. -/
structure FState where
  friendships : List Friendship
  requests : List FriendRequest
deriving DecidableEq

/-- Writing a mutated request row back (`self.save()`): every row with the
same primary key is replaced by the new record. -/
def saveRequest (reqs : List FriendRequest) (r : FriendRequest) : List FriendRequest :=
  reqs.map (fun q => if q.id == r.id then r else q)

/-- `FriendRequest.accept` (src/users/models.py lines 144-151): only while
still `pending`, create the two directional `Friendship` rows
(sender→receiver and receiver→sender) and save the status as `accepted`;
otherwise do nothing. -/
def requestAccept (s : FState) (r : FriendRequest) : FState :=
  if r.status = ReqStatus.pending then
    { friendships := s.friendships ++
        [{ user := r.sender, friend := r.receiver }, { user := r.receiver, friend := r.sender }],
      requests := saveRequest s.requests { r with status := ReqStatus.accepted } }
  else s

/-- `FriendRequest.reject` (src/users/models.py lines 153-157): only while
still `pending`, save the status as `rejected`. -/
def requestReject (s : FState) (r : FriendRequest) : FState :=
  if r.status = ReqStatus.pending then
    { s with requests := saveRequest s.requests { r with status := ReqStatus.rejected } }
  else s

/-- Outcome of the accept/reject endpoints (src/users/views.py lines
435-456 and 485-506): HTTP 400 when the caller is not the receiver, HTTP
400 when the request is no longer pending, HTTP 200 otherwise. -/
inductive ActionResult where
  | notReceiver
  | alreadyDone (st : ReqStatus)
  | ok
deriving DecidableEq

/-- `FriendRequestViewSet.accept` (src/users/views.py lines 435-456). -/
def friendrequest_accept (currentUser : Nat) (s : FState) (r : FriendRequest) :
    ActionResult × FState :=
  if r.receiver ≠ currentUser then (ActionResult.notReceiver, s)
  else if r.status ≠ ReqStatus.pending then (ActionResult.alreadyDone r.status, s)
  else (ActionResult.ok, requestAccept s r)

/-- `FriendRequestViewSet.reject` (src/users/views.py lines 485-506). -/
def friendrequest_reject (currentUser : Nat) (s : FState) (r : FriendRequest) :
    ActionResult × FState :=
  if r.receiver ≠ currentUser then (ActionResult.notReceiver, s)
  else if r.status ≠ ReqStatus.pending then (ActionResult.alreadyDone r.status, s)
  else (ActionResult.ok, requestReject s r)

/-- Outcome of `FriendRequestViewSet.create` (src/users/views.py lines
356-405): the three HTTP 400 errors, the auto-accept fast path (HTTP 201
without a new row), or a newly created pending request (HTTP 201). -/
inductive SendResult where
  | selfRequest
  | alreadyFriends
  | duplicateRequest
  | autoAccepted
  | created (id : Nat)
deriving DecidableEq

/-- `FriendRequestViewSet.create` (src/users/views.py lines 356-405), the
`send_request` contract.  In source order: self-check; `Friendship` edge
sender→receiver check; pending sender→receiver duplicate check; pending
receiver→sender reverse request auto-accept; otherwise create a new
pending row. -/
def friendrequest_create (sender : Nat) (s : FState) (receiver : Nat) (newId : Nat) :
    SendResult × FState :=
  if receiver = sender then (SendResult.selfRequest, s)
  else if s.friendships.any (fun f => f.user == sender && f.friend == receiver) then
    (SendResult.alreadyFriends, s)
  else if s.requests.any (fun q =>
      q.sender == sender && q.receiver == receiver && q.status == ReqStatus.pending) then
    (SendResult.duplicateRequest, s)
  else
    match s.requests.find? (fun q =>
        q.sender == receiver && q.receiver == sender && q.status == ReqStatus.pending) with
    | some reverse => (SendResult.autoAccepted, requestAccept s reverse)
    | none =>
        (SendResult.created newId,
          { s with requests := s.requests ++
              [{ id := newId, sender := sender, receiver := receiver, status := ReqStatus.pending }] })

/-- The public operations that touch `FriendRequest` rows: sending a
request, accepting, rejecting (`update`/`partial_update` are disabled in
the viewset).  A new row gets a fresh primary key. -/
inductive FStep : FState → FState → Prop where
  | send (s : FState) (sender receiver newId : Nat)
      (hfresh : ∀ q ∈ s.requests, q.id ≠ newId) :
      FStep s (friendrequest_create sender s receiver newId).2
  | accept (s : FState) (currentUser : Nat) (r : FriendRequest) (h : r ∈ s.requests) :
      FStep s (friendrequest_accept currentUser s r).2
  | reject (s : FState) (currentUser : Nat) (r : FriendRequest) (h : r ∈ s.requests) :
      FStep s (friendrequest_reject currentUser s r).2

/-- Friendship-subsystem states reachable from the empty database. -/
inductive FReach : FState → Prop where
  | init : FReach { friendships := [], requests := [] }
  | step {s s' : FState} : FReach s → FStep s s' → FReach s'

/-! ### Gallery subsystem (src/gallery/models.py, src/gallery/views.py) -/

/-- `Image.VISIBILITY_CHOICES` (src/gallery/models.py lines 8-11). -/
inductive Visibility where
  | public
  | friends
deriving DecidableEq

/-- One row of the gallery `Image` (src/gallery/models.py lines 5-25); only
the owner and the visibility flag matter to the claims. -/
structure GalleryImage where
  id : Nat
  user : Nat
  visibility : Visibility
deriving DecidableEq

/-- `VisibilityPermission.has_object_permission` (src/gallery/views.py lines
33-48), the `can_view` contract: owner first, then `public`, then the
directional `Friendship` lookup `user=obj.user, friend=request.user` for
`friends` visibility, else deny. -/
def has_object_permission (friendships : List Friendship) (viewer : Nat)
    (img : GalleryImage) : Bool :=
  if img.user == viewer then true
  else if img.visibility == Visibility.public then true
  else if img.visibility == Visibility.friends then
    friendships.any (fun f => f.user == img.user && f.friend == viewer)
  else false

/-- One row of `Like` (src/gallery/models.py lines 43-54). -/
structure LikeRec where
  image : Nat
  user : Nat
deriving DecidableEq

/-- Outcome of `LikeViewSet.create` (src/gallery/views.py lines 239-263):
HTTP 403, HTTP 400 (already liked), or HTTP 201. -/
inductive LikeResult where
  | forbidden
  | alreadyLiked
  | created
deriving DecidableEq

/-- `LikeViewSet.create` (src/gallery/views.py lines 239-263): visibility
check, then the `Like.objects.filter(user=..., image_id=...).exists()`
duplicate check, then the insert. -/
def like_create (currentUser : Nat) (friendships : List Friendship)
    (img : GalleryImage) (likes : List LikeRec) : LikeResult × List LikeRec :=
  if !(has_object_permission friendships currentUser img) then
    (LikeResult.forbidden, likes)
  else if likes.any (fun l => l.user == currentUser && l.image == img.id) then
    (LikeResult.alreadyLiked, likes)
  else
    (LikeResult.created, likes ++ [{ image := img.id, user := currentUser }])

/-- `LikeViewSet.unlike` (src/gallery/views.py lines 282-299): the first
row matching `(user, image_id)` is deleted if present. -/
def unlike (currentUser : Nat) (imgId : Nat) (likes : List LikeRec) :
    Bool × List LikeRec :=
  match likes.find? (fun l => l.user == currentUser && l.image == imgId) with
  | none => (false, likes)
  | some _ =>
      (true, likes.eraseP (fun l => l.user == currentUser && l.image == imgId))

/-- The public operations that touch `Like` rows.  The friendship edges
and the image looked up by `request.data.get("image")` are ambient
context, arbitrary per request. -/
inductive LStep : List LikeRec → List LikeRec → Prop where
  | create (likes : List LikeRec) (currentUser : Nat)
      (friendships : List Friendship) (img : GalleryImage) :
      LStep likes (like_create currentUser friendships img likes).2
  | remove (likes : List LikeRec) (currentUser imgId : Nat) :
      LStep likes (unlike currentUser imgId likes).2

/-- `Like` tables reachable from the empty database. -/
inductive LReach : List LikeRec → Prop where
  | init : LReach []
  | step {l l' : List LikeRec} : LReach l → LStep l l' → LReach l'

/-! ### Statements of the claims under test (verbatim formalizations) -/

/-- The spec's §8 ledger property exactly as claimed: every user's balance
equals the sum of that user's ledger credits minus the sum of ledger
debits. -/
abbrev balanceMatchesLedger (s : GState) : Prop :=
  ∀ u ∈ s.users,
    (u.credits : Int) = (ledgerCredits s.ledger u.id : Int) - (ledgerDebits s.ledger u.id : Int)

/-- Effect classifiers used to state the claimed commit order of a
submission. -/
def isDebitEffect : Effect → Bool
  | Effect.creditDebited _ _ => true
  | _ => false

def isJobCreatedEffect : Effect → Bool
  | Effect.jobCreated _ => true
  | _ => false

/-- The ordering part of the submit claim: the credit is charged strictly
before the job row is created. -/
abbrev debitBeforeJobCreated (effects : List Effect) : Prop :=
  effects.findIdx isDebitEffect < effects.findIdx isJobCreatedEffect

/-- The resubmission guard exactly as claimed: for a job of the owner that
is `pending` or `processing`, resubmitting is rejected and leaves the state
unchanged. -/
abbrev resubmitRejectsNonTerminal (u : UserRec) (s : GState) (jobId : Nat) : Prop :=
  ∀ j ∈ s.jobs, j.id = jobId → j.user = u.id →
    (j.status = JobStatus.pending ∨ j.status = JobStatus.processing) →
    (regenerate u s jobId).1 ≠ RegenerateResult.accepted ∧ (regenerate u s jobId).2 = s

/-- The job-lifecycle property exactly as claimed, including the non-empty
("≠ some empty string") reading of the failed job's error detail. -/
abbrev jobClaimC5 (s : GState) : Prop :=
  ∀ j ∈ s.jobs,
    (j.status = JobStatus.pending → j.converted_image = none) ∧
    (j.status = JobStatus.failed →
      j.error_message ≠ none ∧ j.error_message ≠ some "") ∧
    (j.status = JobStatus.completed → j.converted_image ≠ none)

/-- Primary keys of `FriendRequest` rows are unique (the database's pk
guarantee; fresh rows get fresh ids in `FStep.send`). -/
def UniqueIds (reqs : List FriendRequest) : Prop :=
  ∀ q1 ∈ reqs, ∀ q2 ∈ reqs, q1.id = q2.id → q1 = q2

/-- Concrete scenario used against the claimed job-lifecycle property: a
fresh user submits a conversion, the worker picks it up and the external
transform fails with an empty exception text. -/
def sC5reg : GState := registerUser initState 1 "a@b.c"

def sC5sub : GState :=
  (aiimage_create { id := 1, email := "a@b.c", credits := 10 } sC5reg 1 "o.png"
    none "default_model").2.1

def sC5run : GState := workerPickUp sC5sub 1

def sC5bad : GState := workerFinish sC5run 1 (Except.error "")

/-- Concrete friendship scenario: user 1 sends a request to user 2. -/
def fsC7sent : FState :=
  (friendrequest_create 1 { friendships := [], requests := [] } 2 0).2

/-- ... and user 2 accepts it. -/
def fsC7accepted : FState :=
  (friendrequest_accept 2 fsC7sent
    { id := 0, sender := 1, receiver := 2, status := ReqStatus.pending }).2

/-! ### Ledger bookkeeping lemmas -/

theorem ledgerDebits_append_debit (l : List CreditUsage) (uid amount : Nat) (reason : String) :
    ledgerDebits (l ++ [{ user := uid, amount := amount, is_usage := true, reason := reason }]) uid
      = ledgerDebits l uid + amount := by
  unfold ledgerDebits
  rw [List.filter_append, List.map_append, List.sum_append]
  simp [List.filter_singleton]

theorem ledgerCredits_append_debitEntry (l : List CreditUsage) (uid amount : Nat)
    (reason : String) (uid' : Nat) :
    ledgerCredits (l ++ [{ user := uid, amount := amount, is_usage := true, reason := reason }]) uid'
      = ledgerCredits l uid' := by
  unfold ledgerCredits
  rw [List.filter_append, List.map_append, List.sum_append]
  simp [List.filter_singleton]

theorem ledgerCredits_append_credit (l : List CreditUsage) (uid amount : Nat) (reason : String) :
    ledgerCredits (l ++ [{ user := uid, amount := amount, is_usage := false, reason := reason }]) uid
      = ledgerCredits l uid + amount := by
  unfold ledgerCredits
  rw [List.filter_append, List.map_append, List.sum_append]
  simp [List.filter_singleton]

theorem ledgerDebits_append_creditEntry (l : List CreditUsage) (uid amount : Nat)
    (reason : String) (uid' : Nat) :
    ledgerDebits (l ++ [{ user := uid, amount := amount, is_usage := false, reason := reason }]) uid'
      = ledgerDebits l uid' := by
  unfold ledgerDebits
  rw [List.filter_append, List.map_append, List.sum_append]
  simp [List.filter_singleton]

theorem ledgerDebits_append_other (l : List CreditUsage) (e : CreditUsage) (uid : Nat)
    (h : e.user ≠ uid) :
    ledgerDebits (l ++ [e]) uid = ledgerDebits l uid := by
  unfold ledgerDebits
  rw [List.filter_append, List.map_append, List.sum_append]
  simp [List.filter_singleton, h]

theorem ledgerCredits_append_other (l : List CreditUsage) (e : CreditUsage) (uid : Nat)
    (h : e.user ≠ uid) :
    ledgerCredits (l ++ [e]) uid = ledgerCredits l uid := by
  unfold ledgerCredits
  rw [List.filter_append, List.map_append, List.sum_append]
  simp [List.filter_singleton, h]

theorem ledgerDebits_of_no_entry (l : List CreditUsage) (uid : Nat)
    (h : ∀ e ∈ l, e.user ≠ uid) : ledgerDebits l uid = 0 := by
  unfold ledgerDebits
  have : l.filter (fun e => e.user == uid && e.is_usage) = [] := by
    rw [List.filter_eq_nil_iff]
    intro e he
    simp [h e he]
  simp [this]

theorem ledgerCredits_of_no_entry (l : List CreditUsage) (uid : Nat)
    (h : ∀ e ∈ l, e.user ≠ uid) : ledgerCredits l uid = 0 := by
  unfold ledgerCredits
  have : l.filter (fun e => e.user == uid && !e.is_usage) = [] := by
    rw [List.filter_eq_nil_iff]
    intro e he
    simp [h e he]
  simp [this]

theorem findUser_mem {users : List UserRec} {uid : Nat} {u : UserRec}
    (h : findUser users uid = some u) : u ∈ users :=
  List.mem_of_find?_eq_some h

theorem findUser_id {users : List UserRec} {uid : Nat} {u : UserRec}
    (h : findUser users uid = some u) : u.id = uid := by
  have := List.find?_some h
  simpa using this

theorem findUser_none {users : List UserRec} {uid : Nat}
    (h : findUser users uid = none) : ∀ u ∈ users, u.id ≠ uid := by
  intro u hu
  have := List.find?_eq_none.mp h u hu
  simpa using this

theorem mem_saveUser {users : List UserRec} {u w : UserRec}
    (hw : w ∈ saveUser users u) :
    w = u ∨ (w ∈ users ∧ w.id ≠ u.id) := by
  unfold saveUser at hw
  obtain ⟨v, hv, hveq⟩ := List.mem_map.mp hw
  by_cases hc : v.id = u.id
  · left
    simpa [hc] using hveq.symm
  · right
    have hb : (v.id == u.id) = false := by simpa using hc
    have hwv : w = v := by simpa [hb] using hveq.symm
    subst hwv
    exact ⟨hv, hc⟩

theorem saveUser_self_mem {users : List UserRec} {u : UserRec} (hu : u ∈ users)
    (w : UserRec) (hw : w.id = u.id) : w ∈ saveUser users w := by
  unfold saveUser
  refine List.mem_map.mpr ⟨u, hu, ?_⟩
  simp [hw]

/-- The bookkeeping invariant of the credit subsystem: every ledger row
references an existing user, and every user's balance differs from the
ledger sums by exactly the unledgered registration grant of
`DEFAULT_CREDITS`. -/
def LInv (users : List UserRec) (ledger : List CreditUsage) : Prop :=
  (∀ e ∈ ledger, ∃ v ∈ users, v.id = e.user) ∧
  (∀ v ∈ users, v.credits + ledgerDebits ledger v.id
      = DEFAULT_CREDITS + ledgerCredits ledger v.id)

theorem LInv_debit (users : List UserRec) (ledger : List CreditUsage)
    (u : UserRec) (amount : Nat) (reason : String)
    (hu : u ∈ users) (hge : amount ≤ u.credits) (h : LInv users ledger) :
    LInv (saveUser users { u with credits := u.credits - amount })
      (ledger ++ [{ user := u.id, amount := amount, is_usage := true, reason := reason }]) := by
  obtain ⟨href, hbal⟩ := h
  constructor
  · intro e he
    rcases List.mem_append.mp he with he | he
    · obtain ⟨v, hv, hvid⟩ := href e he
      by_cases hc : v.id = u.id
      · refine ⟨{ u with credits := u.credits - amount }, saveUser_self_mem hu _ rfl, ?_⟩
        show u.id = e.user
        rw [← hc]
        exact hvid
      · refine ⟨v, ?_, hvid⟩
        unfold saveUser
        have hb : (v.id == u.id) = false := by simpa using hc
        have hvv : ((fun x : UserRec =>
            if x.id == u.id then { u with credits := u.credits - amount } else x) v) = v := by
          simp [hb]
        exact hvv ▸ List.mem_map_of_mem _ hv
    · have he2 : e = { user := u.id, amount := amount, is_usage := true, reason := reason } := by
        simpa using he
      subst he2
      exact ⟨{ u with credits := u.credits - amount }, saveUser_self_mem hu _ rfl, rfl⟩
  · intro w hw
    rcases mem_saveUser hw with hw | ⟨hwu, hwid⟩
    · subst hw
      show u.credits - amount + ledgerDebits _ u.id = DEFAULT_CREDITS + ledgerCredits _ u.id
      rw [ledgerDebits_append_debit, ledgerCredits_append_debitEntry]
      have := hbal u hu
      omega
    · have hne : ({ user := u.id, amount := amount, is_usage := true, reason := reason } : CreditUsage).user ≠ w.id :=
        fun hc => hwid (hc.symm)
      rw [ledgerDebits_append_other _ _ _ hne, ledgerCredits_append_other _ _ _ hne]
      exact hbal w hwu

theorem LInv_credit (users : List UserRec) (ledger : List CreditUsage)
    (u : UserRec) (amount : Nat) (reason : String)
    (hu : u ∈ users) (h : LInv users ledger) :
    LInv (saveUser users { u with credits := u.credits + amount })
      (ledger ++ [{ user := u.id, amount := amount, is_usage := false, reason := reason }]) := by
  obtain ⟨href, hbal⟩ := h
  constructor
  · intro e he
    rcases List.mem_append.mp he with he | he
    · obtain ⟨v, hv, hvid⟩ := href e he
      by_cases hc : v.id = u.id
      · refine ⟨{ u with credits := u.credits + amount }, saveUser_self_mem hu _ rfl, ?_⟩
        show u.id = e.user
        rw [← hc]
        exact hvid
      · refine ⟨v, ?_, hvid⟩
        unfold saveUser
        have hb : (v.id == u.id) = false := by simpa using hc
        have hvv : ((fun x : UserRec =>
            if x.id == u.id then { u with credits := u.credits + amount } else x) v) = v := by
          simp [hb]
        exact hvv ▸ List.mem_map_of_mem _ hv
    · have he2 : e = { user := u.id, amount := amount, is_usage := false, reason := reason } := by
        simpa using he
      subst he2
      exact ⟨{ u with credits := u.credits + amount }, saveUser_self_mem hu _ rfl, rfl⟩
  · intro w hw
    rcases mem_saveUser hw with hw | ⟨hwu, hwid⟩
    · subst hw
      show u.credits + amount + ledgerDebits _ u.id = DEFAULT_CREDITS + ledgerCredits _ u.id
      rw [ledgerDebits_append_creditEntry, ledgerCredits_append_credit]
      have := hbal u hu
      omega
    · have hne : ({ user := u.id, amount := amount, is_usage := false, reason := reason } : CreditUsage).user ≠ w.id :=
        fun hc => hwid (hc.symm)
      rw [ledgerDebits_append_other _ _ _ hne, ledgerCredits_append_other _ _ _ hne]
      exact hbal w hwu

theorem LInv_register (users : List UserRec) (ledger : List CreditUsage)
    (uid : Nat) (email : String)
    (hfresh : findUser users uid = none) (h : LInv users ledger) :
    LInv (users ++ [{ id := uid, email := email, credits := DEFAULT_CREDITS }]) ledger := by
  obtain ⟨href, hbal⟩ := h
  have hnoentry : ∀ e ∈ ledger, e.user ≠ uid := by
    intro e he hc
    obtain ⟨v, hv, hvid⟩ := href e he
    exact findUser_none hfresh v hv (hvid.trans hc)
  constructor
  · intro e he
    obtain ⟨v, hv, hvid⟩ := href e he
    exact ⟨v, List.mem_append_left _ hv, hvid⟩
  · intro w hw
    rcases List.mem_append.mp hw with hw | hw
    · exact hbal w hw
    · have : w = { id := uid, email := email, credits := DEFAULT_CREDITS } := by
        simpa using hw
      subst this
      rw [ledgerDebits_of_no_entry _ _ hnoentry, ledgerCredits_of_no_entry _ _ hnoentry]

theorem LInv_gstep {s s' : GState} (hstep : GStep s s') (h : LInv s.users s.ledger) :
    LInv s'.users s'.ledger := by
  cases hstep with
  | register uid email hfind =>
      exact LInv_register _ _ _ email hfind h
  | useCredit u amount reason hfind =>
      by_cases hc : u.credits < amount
      · simpa [applyUseCredit, hc] using h
      · simpa [applyUseCredit, use_credit, hc] using
          LInv_debit s.users s.ledger u amount reason (findUser_mem hfind)
            (Nat.le_of_not_lt hc) h
  | addCredits u amount reason hfind =>
      simpa [applyAddCredits, add_credits] using
        LInv_credit s.users s.ledger u amount reason (findUser_mem hfind) h
  | submit u jobId original prompt model_used hfind =>
      by_cases hc : u.credits < 1
      · simpa [aiimage_create, hc] using h
      · simpa [aiimage_create, use_credit, hc] using
          LInv_debit s.users s.ledger u 1 "AI 이미지 변환" (findUser_mem hfind)
            (Nat.le_of_not_lt hc) h
  | regen u jobId hfind =>
      by_cases hc : u.credits < 1
      · simpa [regenerate, hc] using h
      · cases hj : s.jobs.find? (fun j => j.id == jobId && j.user == u.id) with
        | none => simpa [regenerate, hc, hj] using h
        | some j =>
            simpa [regenerate, use_credit, hc, hj] using
              LInv_debit s.users s.ledger u 1 "AI 이미지 재변환" (findUser_mem hfind)
                (Nat.le_of_not_lt hc) h
  | pickUp jobId => exact h
  | finish jobId result => exact h

theorem LInv_reach {s : GState} (h : GReach s) : LInv s.users s.ledger := by
  induction h with
  | init =>
      constructor
      · intro e he
        simp [initState] at he
      · intro v hv
        simp [initState] at hv
  | step _ hstep ih => exact LInv_gstep hstep ih

/-- The job-lifecycle invariant: a pending job has no converted image, a
failed job has a non-null error message, and a completed job has a
converted image. -/
def JobInv (jobs : List AIImage) : Prop :=
  ∀ j ∈ jobs,
    (j.status = JobStatus.pending → j.converted_image = none) ∧
    (j.status = JobStatus.failed → j.error_message ≠ none) ∧
    (j.status = JobStatus.completed → j.converted_image ≠ none)

theorem JobInv_gstep {s s' : GState} (hstep : GStep s s') (h : JobInv s.jobs) :
    JobInv s'.jobs := by
  cases hstep with
  | register uid email hfind => exact h
  | useCredit u amount reason hfind =>
      by_cases hc : u.credits < amount
      · simpa [applyUseCredit, hc] using h
      · simpa [applyUseCredit, hc] using h
  | addCredits u amount reason hfind => exact h
  | submit u jobId original prompt model_used hfind =>
      by_cases hc : u.credits < 1
      · simpa [aiimage_create, hc] using h
      · intro j hj
        simp only [aiimage_create, if_neg hc] at hj
        rcases List.mem_append.mp hj with hj | hj
        · exact h j hj
        · have hj2 : j = { id := jobId, user := u.id, original_image := original,
                           converted_image := none, prompt := prompt, model_used := model_used,
                           status := JobStatus.pending, error_message := none } := by
            simpa using hj
          subst hj2
          refine ⟨fun _ => rfl, fun hf => ?_, fun hcpl => ?_⟩
          · cases hf
          · cases hcpl
  | regen u jobId hfind =>
      by_cases hc : u.credits < 1
      · simpa [regenerate, hc] using h
      · cases hj : s.jobs.find? (fun j => j.id == jobId && j.user == u.id) with
        | none => simpa [regenerate, hc, hj] using h
        | some j => simpa [regenerate, hc, hj] using h
  | pickUp jobId =>
      intro j hj
      simp only [workerPickUp] at hj
      obtain ⟨j0, hj0, hjeq⟩ := List.mem_map.mp hj
      by_cases hid : (j0.id == jobId) = true
      · rw [if_pos hid] at hjeq
        subst hjeq
        refine ⟨fun hp => ?_, fun hf => ?_, fun hcpl => ?_⟩
        · cases hp
        · cases hf
        · cases hcpl
      · rw [if_neg hid] at hjeq
        subst hjeq
        exact h j0 hj0
  | finish jobId result =>
      intro j hj
      simp only [workerFinish] at hj
      obtain ⟨j0, hj0, hjeq⟩ := List.mem_map.mp hj
      by_cases hid : (j0.id == jobId) = true
      · rw [if_pos hid] at hjeq
        subst hjeq
        cases result with
        | ok converted =>
            refine ⟨fun hp => ?_, fun hf => ?_, fun _ => by simp [applyOutcome]⟩
            · simp [applyOutcome] at hp
            · simp [applyOutcome] at hf
        | error msg =>
            refine ⟨fun hp => ?_, fun _ => by simp [applyOutcome], fun hcpl => ?_⟩
            · simp [applyOutcome] at hp
            · simp [applyOutcome] at hcpl
      · rw [if_neg hid] at hjeq
        subst hjeq
        exact h j0 hj0

theorem JobInv_reach {s : GState} (h : GReach s) : JobInv s.jobs := by
  induction h with
  | init =>
      intro j hj
      simp [initState] at hj
  | step _ hstep ih => exact JobInv_gstep hstep ih

theorem findUser_saveUser {users : List UserRec} {uid : Nat} {u : UserRec}
    (h : findUser users uid = some u) (w : UserRec) (hw : w.id = uid) :
    findUser (saveUser users w) uid = some w := by
  induction users with
  | nil => simp [findUser] at h
  | cons a rest ih =>
      by_cases ha : a.id = uid
      · unfold findUser saveUser
        simp [ha, hw]
      · have hbw : (a.id == w.id) = false := by simpa [hw] using ha
        have h' : findUser rest uid = some u := by
          unfold findUser at h
          rwa [List.find?_cons_of_neg _ (by simpa using ha)] at h
        have hrec := ih h'
        unfold findUser saveUser at hrec ⊢
        rw [List.map_cons, List.find?_cons_of_neg]
        · exact hrec
        · simp [hbw, ha]

/-! ### Friend-request bookkeeping lemmas -/

theorem mem_saveRequest {reqs : List FriendRequest} {rnew q' : FriendRequest}
    (h : q' ∈ saveRequest reqs rnew) :
    q' = rnew ∨ (q' ∈ reqs ∧ q'.id ≠ rnew.id) := by
  unfold saveRequest at h
  obtain ⟨q0, hq0, hq0eq⟩ := List.mem_map.mp h
  by_cases hc : q0.id = rnew.id
  · left
    simpa [hc] using hq0eq.symm
  · right
    have hb : (q0.id == rnew.id) = false := by simpa using hc
    have hq : q' = q0 := by simpa [hb] using hq0eq.symm
    subst hq
    exact ⟨hq0, hc⟩

theorem mem_saveRequest_of_ne {reqs : List FriendRequest} {q rnew : FriendRequest}
    (hq : q ∈ reqs) (hne : q.id ≠ rnew.id) : q ∈ saveRequest reqs rnew := by
  unfold saveRequest
  refine List.mem_map.mpr ⟨q, hq, ?_⟩
  have hb : (q.id == rnew.id) = false := by simpa using hne
  simp [hb]

theorem uniqueIds_saveRequest {reqs : List FriendRequest} {rnew : FriendRequest}
    (h : UniqueIds reqs) :
    UniqueIds (saveRequest reqs rnew) := by
  intro q1 hq1 q2 hq2 hid
  rcases mem_saveRequest hq1 with h1 | ⟨h1, h1ne⟩ <;>
    rcases mem_saveRequest hq2 with h2 | ⟨h2, h2ne⟩
  · exact h1.trans h2.symm
  · exfalso
    exact h2ne (hid ▸ (h1 ▸ rfl : q1.id = rnew.id)).symm.symm
  · exfalso
    exact h1ne ((hid.symm ▸ (h2 ▸ rfl : q2.id = rnew.id)))
  · exact h q1 h1 q2 h2 hid

theorem uniqueIds_append_fresh {reqs : List FriendRequest} {rnew : FriendRequest}
    (h : UniqueIds reqs) (hfresh : ∀ q ∈ reqs, q.id ≠ rnew.id) :
    UniqueIds (reqs ++ [rnew]) := by
  intro q1 hq1 q2 hq2 hid
  rcases List.mem_append.mp hq1 with h1 | h1 <;>
    rcases List.mem_append.mp hq2 with h2 | h2
  · exact h q1 h1 q2 h2 hid
  · exfalso
    have h2e : q2 = rnew := by simpa using h2
    exact hfresh q1 h1 (h2e ▸ hid)
  · exfalso
    have h1e : q1 = rnew := by simpa using h1
    exact hfresh q2 h2 (h1e ▸ hid).symm
  · have h1e : q1 = rnew := by simpa using h1
    have h2e : q2 = rnew := by simpa using h2
    exact h1e.trans h2e.symm

/-- Decomposition of a successful reverse-request lookup in
`friendrequest_create`. -/
theorem reverse_find_props {reqs : List FriendRequest} {sender receiver : Nat}
    {reverse : FriendRequest}
    (h : reqs.find? (fun q =>
        q.sender == receiver && q.receiver == sender && q.status == ReqStatus.pending)
      = some reverse) :
    reverse ∈ reqs ∧ reverse.sender = receiver ∧ reverse.receiver = sender ∧
      reverse.status = ReqStatus.pending := by
  refine ⟨List.mem_of_find?_eq_some h, ?_⟩
  have hp := List.find?_some h
  simp only [Bool.and_eq_true, beq_iff_eq] at hp
  exact ⟨hp.1.1, hp.1.2, hp.2⟩

theorem fstep_uniqueIds {s s' : FState} (hstep : FStep s s')
    (h : UniqueIds s.requests) : UniqueIds s'.requests := by
  cases hstep with
  | send sender receiver newId hfresh =>
      unfold friendrequest_create
      by_cases h1 : receiver = sender
      · simpa [h1] using h
      · rw [if_neg h1]
        by_cases h2 : s.friendships.any (fun f => f.user == sender && f.friend == receiver) = true
        · simpa [h2] using h
        · rw [if_neg h2]
          by_cases h3 : s.requests.any (fun q =>
              q.sender == sender && q.receiver == receiver && q.status == ReqStatus.pending) = true
          · simpa [h3] using h
          · rw [if_neg h3]
            cases hfind : s.requests.find? (fun q =>
                q.sender == receiver && q.receiver == sender && q.status == ReqStatus.pending) with
            | none =>
                refine uniqueIds_append_fresh h ?_
                intro q hq
                exact hfresh q hq
            | some reverse =>
                obtain ⟨hmem, _, _, hpend⟩ := reverse_find_props hfind
                simp only [requestAccept, if_pos hpend]
                exact uniqueIds_saveRequest h
  | accept currentUser r hr =>
      unfold friendrequest_accept
      by_cases h1 : r.receiver ≠ currentUser
      · simpa [h1] using h
      · rw [if_neg h1]
        by_cases h2 : r.status ≠ ReqStatus.pending
        · simpa [h2] using h
        · rw [if_neg h2]
          have hpend : r.status = ReqStatus.pending := not_not.mp h2
          simp only [requestAccept, if_pos hpend]
          exact uniqueIds_saveRequest h
  | reject currentUser r hr =>
      unfold friendrequest_reject
      by_cases h1 : r.receiver ≠ currentUser
      · simpa [h1] using h
      · rw [if_neg h1]
        by_cases h2 : r.status ≠ ReqStatus.pending
        · simpa [h2] using h
        · rw [if_neg h2]
          have hpend : r.status = ReqStatus.pending := not_not.mp h2
          simp only [requestReject, if_pos hpend]
          exact uniqueIds_saveRequest h

theorem freach_uniqueIds {s : FState} (h : FReach s) : UniqueIds s.requests := by
  induction h with
  | init =>
      intro q hq
      simp at hq
  | step _ hstep ih => exact fstep_uniqueIds hstep ih

/-- A settled (non-pending) request row survives any single public
operation unchanged. -/
theorem fstep_row_survives {s s' : FState} (hstep : FStep s s')
    (huniq : UniqueIds s.requests) {q : FriendRequest} (hq : q ∈ s.requests)
    (hqs : q.status ≠ ReqStatus.pending) : q ∈ s'.requests := by
  have hsave : ∀ rnew : FriendRequest, rnew ∈ s.requests →
      rnew.status = ReqStatus.pending → ∀ st : ReqStatus,
      q ∈ saveRequest s.requests { rnew with status := st } := by
    intro rnew hmem hpend st
    refine mem_saveRequest_of_ne hq ?_
    intro hid
    exact hqs ((huniq q hq rnew hmem hid) ▸ hpend)
  cases hstep with
  | send sender receiver newId hfresh =>
      unfold friendrequest_create
      by_cases h1 : receiver = sender
      · simpa [h1] using hq
      · rw [if_neg h1]
        by_cases h2 : s.friendships.any (fun f => f.user == sender && f.friend == receiver) = true
        · simpa [h2] using hq
        · rw [if_neg h2]
          by_cases h3 : s.requests.any (fun q =>
              q.sender == sender && q.receiver == receiver && q.status == ReqStatus.pending) = true
          · simpa [h3] using hq
          · rw [if_neg h3]
            cases hfind : s.requests.find? (fun q =>
                q.sender == receiver && q.receiver == sender && q.status == ReqStatus.pending) with
            | none => exact List.mem_append_left _ hq
            | some reverse =>
                obtain ⟨hmem, _, _, hpend⟩ := reverse_find_props hfind
                simp only [requestAccept, if_pos hpend]
                exact hsave reverse hmem hpend ReqStatus.accepted
  | accept currentUser r hr =>
      unfold friendrequest_accept
      by_cases h1 : r.receiver ≠ currentUser
      · simpa [h1] using hq
      · rw [if_neg h1]
        by_cases h2 : r.status ≠ ReqStatus.pending
        · simpa [h2] using hq
        · rw [if_neg h2]
          have hpend : r.status = ReqStatus.pending := not_not.mp h2
          simp only [requestAccept, if_pos hpend]
          exact hsave r hr hpend ReqStatus.accepted
  | reject currentUser r hr =>
      unfold friendrequest_reject
      by_cases h1 : r.receiver ≠ currentUser
      · simpa [h1] using hq
      · rw [if_neg h1]
        by_cases h2 : r.status ≠ ReqStatus.pending
        · simpa [h2] using hq
        · rw [if_neg h2]
          have hpend : r.status = ReqStatus.pending := not_not.mp h2
          simp only [requestReject, if_pos hpend]
          exact hsave r hr hpend ReqStatus.rejected

theorem freach_of_steps {s s' : FState} (h : FReach s)
    (hsteps : Relation.ReflTransGen FStep s s') : FReach s' := by
  induction hsteps with
  | refl => exact h
  | tail _ hstep ih => exact FReach.step ih hstep

theorem fsteps_row_survives {s s' : FState} (hreach : FReach s)
    (hsteps : Relation.ReflTransGen FStep s s') {q : FriendRequest}
    (hq : q ∈ s.requests) (hqs : q.status ≠ ReqStatus.pending) : q ∈ s'.requests := by
  induction hsteps with
  | refl => exact hq
  | tail hpre hstep ih =>
      exact fstep_row_survives hstep
        (freach_uniqueIds (freach_of_steps hreach hpre)) ih hqs

/-! ### Like bookkeeping lemmas -/

theorem countP_split {α : Type} (l : List α) (c p : α → Bool) :
    l.countP p = l.countP (fun a => c a && p a) + l.countP (fun a => !c a && p a) := by
  induction l with
  | nil => simp
  | cons a rest ih =>
      rw [List.countP_cons, List.countP_cons, List.countP_cons]
      cases hc : c a <;> cases hp : p a <;> simp [hc, hp] <;> omega

theorem lstep_like_at_most_one {l l' : List LikeRec} (hstep : LStep l l')
    (h : ∀ imgId uid : Nat, l.countP (fun x => x.user == uid && x.image == imgId) ≤ 1) :
    ∀ imgId uid : Nat, l'.countP (fun x => x.user == uid && x.image == imgId) ≤ 1 := by
  cases hstep with
  | create currentUser friendships img =>
      intro imgId uid
      unfold like_create
      cases hP : has_object_permission friendships currentUser img with
      | false => simpa [hP] using h imgId uid
      | true =>
          cases hA : l.any (fun x => x.user == currentUser && x.image == img.id) with
          | true => simpa [hP, hA] using h imgId uid
          | false =>
              simp only [hP, hA, Bool.not_true, Bool.false_eq_true, if_false, if_true]
              rw [List.countP_append]
              by_cases hm : currentUser = uid ∧ img.id = imgId
              · have hzero : l.countP (fun x => x.user == uid && x.image == imgId) = 0 := by
                  rw [List.countP_eq_zero]
                  intro x hx
                  have := List.any_eq_false.mp hA x hx
                  simpa [hm.1, hm.2] using this
                have hone : ([{ image := img.id, user := currentUser }] : List LikeRec).countP
                    (fun x => x.user == uid && x.image == imgId) ≤ 1 := by
                  simp [List.countP_cons, hm.1, hm.2]
                omega
              · have hnewzero : ([{ image := img.id, user := currentUser }] : List LikeRec).countP
                    (fun x => x.user == uid && x.image == imgId) = 0 := by
                  rw [List.countP_eq_zero]
                  intro x hx
                  have hx2 : x = ({ image := img.id, user := currentUser } : LikeRec) := by
                    simpa using hx
                  subst hx2
                  simp only [Bool.and_eq_true, beq_iff_eq]
                  intro hc
                  exact hm ⟨hc.1, hc.2⟩
                rw [hnewzero]
                have := h imgId uid
                omega
  | remove currentUser imgId0 =>
      intro imgId uid
      unfold unlike
      cases hf : l.find? (fun x => x.user == currentUser && x.image == imgId0) with
      | none => simpa [hf] using h imgId uid
      | some x =>
          simp only [hf]
          calc (l.eraseP (fun x => x.user == currentUser && x.image == imgId0)).countP
                (fun x => x.user == uid && x.image == imgId)
              ≤ l.countP (fun x => x.user == uid && x.image == imgId) :=
                (List.eraseP_sublist l).countP_le _
            _ ≤ 1 := h imgId uid

theorem lreach_like_at_most_one {l : List LikeRec} (h : LReach l) :
    ∀ imgId uid : Nat, l.countP (fun x => x.user == uid && x.image == imgId) ≤ 1 := by
  induction h with
  | init => intro imgId uid; simp
  | step _ hstep ih => exact lstep_like_at_most_one hstep ih

/-! ### Claim C1 -/

/-- C1 fails as stated: a freshly registered user is reachable whose balance
is the unledgered default 10 while the ledger sums are 0, so balance does
not equal ledger credits minus ledger debits. -/
theorem C1_counterexample :
    GReach (registerUser initState 1 "alice@example.com") ∧
    ¬ balanceMatchesLedger (registerUser initState 1 "alice@example.com") :=
  ⟨GReach.step GReach.init (GStep.register initState 1 "alice@example.com" rfl),
   by decide⟩

/-- C1 (amended): at every observation point reachable through the public
operations, every user's balance plus the sum of that user's ledger debits
equals the unledgered registration grant of 10 plus the sum of that user's
ledger credits — i.e. the balance tracks the ledger exactly, offset by the
initial 10 that registration never records as a ledger entry. -/
theorem C1_balance_ledger_offset {s : GState} (h : GReach s) :
    ∀ u ∈ s.users, u.credits + ledgerDebits s.ledger u.id
      = DEFAULT_CREDITS + ledgerCredits s.ledger u.id :=
  (LInv_reach h).2

/-- Witness for the amended C1 at a concrete reachable state and its one
user row. -/
theorem C1_balance_ledger_offset_witness :
    ({ id := 1, email := "alice@example.com", credits := DEFAULT_CREDITS } : UserRec).credits
      + ledgerDebits (registerUser initState 1 "alice@example.com").ledger 1
      = DEFAULT_CREDITS
        + ledgerCredits (registerUser initState 1 "alice@example.com").ledger 1 :=
  C1_balance_ledger_offset
    (GReach.step GReach.init (GStep.register initState 1 "alice@example.com" rfl))
    { id := 1, email := "alice@example.com", credits := DEFAULT_CREDITS }
    (by decide)

/-! ### Claim C10 -/

/-- C10: registering a fresh user initializes the balance to the field
default 10, leaves the ledger untouched (zero `CreditUsage` rows for the
new user), and therefore the fresh balance differs from the user's ledger
credits minus debits, which are 0. -/
theorem C10_registration_default (s : GState) (uid : Nat) (email : String)
    (h : GReach s) (hfresh : findUser s.users uid = none) :
    findUser (registerUser s uid email).users uid
      = some { id := uid, email := email, credits := DEFAULT_CREDITS } ∧
    (registerUser s uid email).ledger = s.ledger ∧
    ledgerCredits (registerUser s uid email).ledger uid = 0 ∧
    ledgerDebits (registerUser s uid email).ledger uid = 0 ∧
    DEFAULT_CREDITS = 10 ∧
    ((DEFAULT_CREDITS : Int)
      ≠ (ledgerCredits (registerUser s uid email).ledger uid : Int)
        - (ledgerDebits (registerUser s uid email).ledger uid : Int)) := by
  have hnoentry : ∀ e ∈ s.ledger, e.user ≠ uid := by
    intro e he hc
    obtain ⟨v, hv, hvid⟩ := (LInv_reach h).1 e he
    exact findUser_none hfresh v hv (hvid.trans hc)
  have hcz : ledgerCredits s.ledger uid = 0 := ledgerCredits_of_no_entry _ _ hnoentry
  have hdz : ledgerDebits s.ledger uid = 0 := ledgerDebits_of_no_entry _ _ hnoentry
  have hledger : (registerUser s uid email).ledger = s.ledger := rfl
  refine ⟨?_, rfl, ?_, ?_, rfl, ?_⟩
  · unfold registerUser findUser
    rw [List.find?_append]
    unfold findUser at hfresh
    rw [hfresh]
    simp
  · rw [hledger, hcz]
  · rw [hledger, hdz]
  · rw [hledger, hcz, hdz]
    decide

/-- Witness for C10 at the empty database. -/
theorem C10_registration_default_witness :
    findUser (registerUser initState 7 "bob@example.com").users 7
      = some { id := 7, email := "bob@example.com", credits := DEFAULT_CREDITS } ∧
    (registerUser initState 7 "bob@example.com").ledger = initState.ledger ∧
    ledgerCredits (registerUser initState 7 "bob@example.com").ledger 7 = 0 ∧
    ledgerDebits (registerUser initState 7 "bob@example.com").ledger 7 = 0 ∧
    DEFAULT_CREDITS = 10 ∧
    ((DEFAULT_CREDITS : Int)
      ≠ (ledgerCredits (registerUser initState 7 "bob@example.com").ledger 7 : Int)
        - (ledgerDebits (registerUser initState 7 "bob@example.com").ledger 7 : Int)) :=
  C10_registration_default initState 7 "bob@example.com" GReach.init rfl

/-! ### Claim C2 -/

/-- C2: `use_credit` reports failure and leaves the balance and the ledger
completely untouched when the amount exceeds the balance; a successful
debit appends exactly one ledger row and decreases the balance by exactly
the amount, both in the same returned state. -/
theorem C2_use_credit_contract (u : UserRec) (ledger : List CreditUsage)
    (amount : Nat) (reason : String) :
    (amount > u.credits →
      use_credit u ledger amount reason = (false, u, ledger)) ∧
    (amount ≤ u.credits →
      use_credit u ledger amount reason
        = (true, { u with credits := u.credits - amount },
            ledger ++ [{ user := u.id, amount := amount, is_usage := true, reason := reason }]) ∧
      (use_credit u ledger amount reason).2.1.credits + amount = u.credits ∧
      (use_credit u ledger amount reason).2.2.length = ledger.length + 1) := by
  constructor
  · intro hlt
    simp [use_credit, hlt]
  · intro hge
    have hnlt : ¬ u.credits < amount := Nat.not_lt.mpr hge
    refine ⟨by simp [use_credit, hnlt], ?_, ?_⟩
    · simp only [use_credit, if_neg hnlt]
      omega
    · simp [use_credit, hnlt]

/-- Witness for C2: a failing debit (2 from a balance of 1) and a
successful one (1 from a balance of 2). -/
theorem C2_use_credit_contract_witness :
    use_credit { id := 1, email := "a", credits := 1 } [] 2 "r"
      = (false, { id := 1, email := "a", credits := 1 }, []) ∧
    use_credit { id := 1, email := "a", credits := 2 } [] 1 "r"
      = (true, { id := 1, email := "a", credits := 1 },
          [{ user := 1, amount := 1, is_usage := true, reason := "r" }]) :=
  ⟨(C2_use_credit_contract { id := 1, email := "a", credits := 1 } [] 2 "r").1 (by decide),
   (((C2_use_credit_contract { id := 1, email := "a", credits := 2 } [] 1 "r").2 (by decide)).1)⟩

/-! ### Claim C3 -/

/-- C3 fails as stated: with exactly one credit, submission commits the job
row first and only then the debit — the effect trace is
`[jobCreated, creditDebited]`, so the debit does not precede the job
creation as the claim requires. -/
theorem C3_counterexample :
    (aiimage_create { id := 1, email := "a", credits := 1 }
        { users := [{ id := 1, email := "a", credits := 1 }], ledger := [], jobs := [] }
        1 "o.png" none "default_model").2.2
      = [Effect.jobCreated 1, Effect.creditDebited 1 1] ∧
    ¬ debitBeforeJobCreated
        (aiimage_create { id := 1, email := "a", credits := 1 }
          { users := [{ id := 1, email := "a", credits := 1 }], ledger := [], jobs := [] }
          1 "o.png" none "default_model").2.2 := by
  constructor
  · decide
  · decide

/-- C3 (amended): submission charges exactly one credit synchronously in
the same request, but after the job row is created (the balance is checked
before): with 0 credits the request is rejected reporting the current
balance and nothing changes; with exactly 1 credit the balance becomes 0,
exactly one ledger debit row is appended, exactly one pending job row is
appended, and the effect trace commits the job creation before the
debit. -/
theorem C3_submit_contract (u : UserRec) (s : GState) (jobId : Nat)
    (original : String) (prompt : Option String) (model_used : String)
    (hu : findUser s.users u.id = some u) :
    (u.credits = 0 →
      aiimage_create u s jobId original prompt model_used
        = (CreateResult.insufficient u.credits, s, [])) ∧
    (u.credits = 1 →
      (aiimage_create u s jobId original prompt model_used).1 = CreateResult.created jobId ∧
      findUser (aiimage_create u s jobId original prompt model_used).2.1.users u.id
        = some { id := u.id, email := u.email, credits := 0 } ∧
      (aiimage_create u s jobId original prompt model_used).2.1.ledger
        = s.ledger ++ [{ user := u.id, amount := 1, is_usage := true, reason := "AI 이미지 변환" }] ∧
      (aiimage_create u s jobId original prompt model_used).2.1.jobs
        = s.jobs ++ [{ id := jobId, user := u.id, original_image := original,
                       converted_image := none, prompt := prompt, model_used := model_used,
                       status := JobStatus.pending, error_message := none }] ∧
      (aiimage_create u s jobId original prompt model_used).2.2
        = [Effect.jobCreated jobId, Effect.creditDebited u.id 1]) := by
  constructor
  · intro h0
    simp [aiimage_create, h0]
  · intro h1
    have hnlt : ¬ u.credits < 1 := by omega
    have hfs := findUser_saveUser hu { u with credits := u.credits - 1 } rfl
    refine ⟨by simp [aiimage_create, hnlt], ?_, ?_, ?_, ?_⟩
    · simp only [aiimage_create, if_neg hnlt, use_credit]
      simpa [h1] using hfs
    · simp [aiimage_create, hnlt, use_credit]
    · simp [aiimage_create, hnlt, use_credit]
    · simp [aiimage_create, hnlt]

/-- Witness for the amended C3: one rejected zero-credit submission and one
successful one-credit submission. -/
theorem C3_submit_contract_witness :
    (aiimage_create { id := 1, email := "a", credits := 0 }
        { users := [{ id := 1, email := "a", credits := 0 }], ledger := [], jobs := [] }
        1 "o.png" none "default_model")
      = (CreateResult.insufficient 0,
         { users := [{ id := 1, email := "a", credits := 0 }], ledger := [], jobs := [] },
         []) ∧
    ((aiimage_create { id := 1, email := "a", credits := 1 }
        { users := [{ id := 1, email := "a", credits := 1 }], ledger := [], jobs := [] }
        1 "o.png" none "default_model").1 = CreateResult.created 1 ∧
     findUser (aiimage_create { id := 1, email := "a", credits := 1 }
        { users := [{ id := 1, email := "a", credits := 1 }], ledger := [], jobs := [] }
        1 "o.png" none "default_model").2.1.users 1
       = some { id := 1, email := "a", credits := 0 } ∧
     (aiimage_create { id := 1, email := "a", credits := 1 }
        { users := [{ id := 1, email := "a", credits := 1 }], ledger := [], jobs := [] }
        1 "o.png" none "default_model").2.1.ledger
       = [] ++ [{ user := 1, amount := 1, is_usage := true, reason := "AI 이미지 변환" }] ∧
     (aiimage_create { id := 1, email := "a", credits := 1 }
        { users := [{ id := 1, email := "a", credits := 1 }], ledger := [], jobs := [] }
        1 "o.png" none "default_model").2.1.jobs
       = [] ++ [{ id := 1, user := 1, original_image := "o.png", converted_image := none,
                  prompt := none, model_used := "default_model",
                  status := JobStatus.pending, error_message := none }] ∧
     (aiimage_create { id := 1, email := "a", credits := 1 }
        { users := [{ id := 1, email := "a", credits := 1 }], ledger := [], jobs := [] }
        1 "o.png" none "default_model").2.2
       = [Effect.jobCreated 1, Effect.creditDebited 1 1]) :=
  ⟨(C3_submit_contract { id := 1, email := "a", credits := 0 }
      { users := [{ id := 1, email := "a", credits := 0 }], ledger := [], jobs := [] }
      1 "o.png" none "default_model" rfl).1 rfl,
   (C3_submit_contract { id := 1, email := "a", credits := 1 }
      { users := [{ id := 1, email := "a", credits := 1 }], ledger := [], jobs := [] }
      1 "o.png" none "default_model" rfl).2 rfl⟩

/-! ### Claim C4 -/

/-- C4 fails as stated: `regenerate` has no job-status check, so a pending
job of a one-credit owner is happily resubmitted — the response is 202
accepted and the state changes (a credit is debited), not an
invalid-transition rejection leaving the state unchanged. -/
theorem C4_counterexample :
    ¬ resubmitRejectsNonTerminal { id := 1, email := "a", credits := 1 }
        { users := [{ id := 1, email := "a", credits := 1 }],
          ledger := [],
          jobs := [{ id := 1, user := 1, original_image := "o.png", converted_image := none,
                     prompt := none, model_used := "default_model",
                     status := JobStatus.pending, error_message := none }] }
        1 := by
  decide

/-- C4 (amended): resubmission checks only the credit balance and the
ownership lookup, never the job's status: for any owned job — pending,
processing, completed or failed alike — an owner with at least one credit
gets 202 accepted, one credit debited and one ledger debit row appended,
while an owner with zero credits gets the insufficient-funds error with
the current balance; no invalid-transition rejection exists. -/
theorem C4_regenerate_contract (u : UserRec) (s : GState) (jobId : Nat)
    (hu : findUser s.users u.id = some u) :
    (u.credits < 1 → regenerate u s jobId = (RegenerateResult.insufficient u.credits, s)) ∧
    (1 ≤ u.credits →
      ∀ j, s.jobs.find? (fun x => x.id == jobId && x.user == u.id) = some j →
        (regenerate u s jobId).1 = RegenerateResult.accepted ∧
        (regenerate u s jobId).2.ledger
          = s.ledger ++ [{ user := u.id, amount := 1, is_usage := true, reason := "AI 이미지 재변환" }] ∧
        (regenerate u s jobId).2.jobs = s.jobs ∧
        findUser (regenerate u s jobId).2.users u.id
          = some { id := u.id, email := u.email, credits := u.credits - 1 }) := by
  constructor
  · intro hc
    simp [regenerate, hc]
  · intro hge j hj
    have hnlt : ¬ u.credits < 1 := by omega
    have hfs := findUser_saveUser hu { u with credits := u.credits - 1 } rfl
    refine ⟨?_, ?_, ?_, ?_⟩
    · simp [regenerate, hnlt, hj]
    · simp [regenerate, hnlt, hj, use_credit]
    · simp [regenerate, hnlt, hj]
    · simp only [regenerate, if_neg hnlt, hj, use_credit]
      exact hfs

/-- Witness for the amended C4: a zero-credit owner is rejected; a
one-credit owner resubmits a pending job successfully. -/
theorem C4_regenerate_contract_witness :
    (regenerate { id := 1, email := "a", credits := 0 }
        { users := [{ id := 1, email := "a", credits := 0 }], ledger := [],
          jobs := [{ id := 1, user := 1, original_image := "o.png", converted_image := none,
                     prompt := none, model_used := "default_model",
                     status := JobStatus.pending, error_message := none }] } 1
      = (RegenerateResult.insufficient 0,
         { users := [{ id := 1, email := "a", credits := 0 }], ledger := [],
           jobs := [{ id := 1, user := 1, original_image := "o.png", converted_image := none,
                      prompt := none, model_used := "default_model",
                      status := JobStatus.pending, error_message := none }] })) ∧
    ((regenerate { id := 1, email := "a", credits := 1 }
        { users := [{ id := 1, email := "a", credits := 1 }], ledger := [],
          jobs := [{ id := 1, user := 1, original_image := "o.png", converted_image := none,
                     prompt := none, model_used := "default_model",
                     status := JobStatus.pending, error_message := none }] } 1).1
      = RegenerateResult.accepted ∧
     (regenerate { id := 1, email := "a", credits := 1 }
        { users := [{ id := 1, email := "a", credits := 1 }], ledger := [],
          jobs := [{ id := 1, user := 1, original_image := "o.png", converted_image := none,
                     prompt := none, model_used := "default_model",
                     status := JobStatus.pending, error_message := none }] } 1).2.ledger
      = [] ++ [{ user := 1, amount := 1, is_usage := true, reason := "AI 이미지 재변환" }] ∧
     (regenerate { id := 1, email := "a", credits := 1 }
        { users := [{ id := 1, email := "a", credits := 1 }], ledger := [],
          jobs := [{ id := 1, user := 1, original_image := "o.png", converted_image := none,
                     prompt := none, model_used := "default_model",
                     status := JobStatus.pending, error_message := none }] } 1).2.jobs
      = [{ id := 1, user := 1, original_image := "o.png", converted_image := none,
           prompt := none, model_used := "default_model",
           status := JobStatus.pending, error_message := none }] ∧
     findUser (regenerate { id := 1, email := "a", credits := 1 }
        { users := [{ id := 1, email := "a", credits := 1 }], ledger := [],
          jobs := [{ id := 1, user := 1, original_image := "o.png", converted_image := none,
                     prompt := none, model_used := "default_model",
                     status := JobStatus.pending, error_message := none }] } 1).2.users 1
      = some { id := 1, email := "a", credits := 0 }) :=
  ⟨(C4_regenerate_contract { id := 1, email := "a", credits := 0 }
      { users := [{ id := 1, email := "a", credits := 0 }], ledger := [],
        jobs := [{ id := 1, user := 1, original_image := "o.png", converted_image := none,
                   prompt := none, model_used := "default_model",
                   status := JobStatus.pending, error_message := none }] } 1 rfl).1 (by decide),
   (C4_regenerate_contract { id := 1, email := "a", credits := 1 }
      { users := [{ id := 1, email := "a", credits := 1 }], ledger := [],
        jobs := [{ id := 1, user := 1, original_image := "o.png", converted_image := none,
                   prompt := none, model_used := "default_model",
                   status := JobStatus.pending, error_message := none }] } 1 rfl).2
      (by decide) _ rfl⟩

/-! ### Claim C5 -/

/-- C5 fails as stated: a conversion whose external transform raises an
exception with empty text is reachable; the job ends `failed` with the
empty string stored verbatim as its error detail, so the failed job's
error detail is not non-empty. -/
theorem C5_counterexample : GReach sC5bad ∧ ¬ jobClaimC5 sC5bad :=
  ⟨GReach.step (GReach.step (GReach.step (GReach.step GReach.init
      (GStep.register initState 1 "a@b.c" rfl))
      (GStep.submit sC5reg { id := 1, email := "a@b.c", credits := 10 } 1 "o.png"
        none "default_model" rfl))
      (GStep.pickUp sC5sub 1))
      (GStep.finish sC5run 1 (Except.error "")),
   by decide⟩

/-- C5 (amended): for every reachable conversion job, a pending job has a
null converted-image reference, a completed job has a non-null
converted-image reference, and a failed job has a non-null error detail —
the error text is stored verbatim from the external failure, so it is
non-empty only when the external message is. -/
theorem C5_job_lifecycle {s : GState} (h : GReach s) :
    ∀ j ∈ s.jobs,
      (j.status = JobStatus.pending → j.converted_image = none) ∧
      (j.status = JobStatus.failed → j.error_message ≠ none) ∧
      (j.status = JobStatus.completed → j.converted_image ≠ none) :=
  JobInv_reach h

/-- Witness for the amended C5 at the concrete failed job of the reachable
state `sC5bad`. -/
theorem C5_job_lifecycle_witness :
    (({ id := 1, user := 1, original_image := "o.png", converted_image := none,
        prompt := none, model_used := "default_model", status := JobStatus.failed,
        error_message := some "" } : AIImage).status = JobStatus.pending →
      ({ id := 1, user := 1, original_image := "o.png", converted_image := none,
         prompt := none, model_used := "default_model", status := JobStatus.failed,
         error_message := some "" } : AIImage).converted_image = none) ∧
    (({ id := 1, user := 1, original_image := "o.png", converted_image := none,
        prompt := none, model_used := "default_model", status := JobStatus.failed,
        error_message := some "" } : AIImage).status = JobStatus.failed →
      ({ id := 1, user := 1, original_image := "o.png", converted_image := none,
         prompt := none, model_used := "default_model", status := JobStatus.failed,
         error_message := some "" } : AIImage).error_message ≠ none) ∧
    (({ id := 1, user := 1, original_image := "o.png", converted_image := none,
        prompt := none, model_used := "default_model", status := JobStatus.failed,
        error_message := some "" } : AIImage).status = JobStatus.completed →
      ({ id := 1, user := 1, original_image := "o.png", converted_image := none,
         prompt := none, model_used := "default_model", status := JobStatus.failed,
         error_message := some "" } : AIImage).converted_image ≠ none) :=
  C5_job_lifecycle
    (GReach.step (GReach.step (GReach.step (GReach.step GReach.init
      (GStep.register initState 1 "a@b.c" rfl))
      (GStep.submit sC5reg { id := 1, email := "a@b.c", credits := 10 } 1 "o.png"
        none "default_model" rfl))
      (GStep.pickUp sC5sub 1))
      (GStep.finish sC5run 1 (Except.error "")))
    { id := 1, user := 1, original_image := "o.png", converted_image := none,
      prompt := none, model_used := "default_model", status := JobStatus.failed,
      error_message := some "" }
    (by decide)

/-! ### Claim C6 -/

/-- C6: `can_view` follows the claimed rule in priority order — the owner
is always allowed regardless of visibility, `public` images are visible to
every viewer, and a `friends` image is visible to a non-owner exactly when
a `Friendship` edge from the image owner to the viewer exists (the
directional lookup). -/
theorem C6_can_view_rule (friendships : List Friendship) (viewer : Nat)
    (img : GalleryImage) :
    (img.user = viewer → has_object_permission friendships viewer img = true) ∧
    (img.visibility = Visibility.public → has_object_permission friendships viewer img = true) ∧
    (img.visibility = Visibility.friends → img.user ≠ viewer →
      (has_object_permission friendships viewer img = true ↔
        ∃ f ∈ friendships, f.user = img.user ∧ f.friend = viewer)) := by
  refine ⟨fun h => by simp [has_object_permission, h], fun h => ?_, fun h hno => ?_⟩
  · by_cases ho : img.user = viewer
    · simp [has_object_permission, ho]
    · simp [has_object_permission, ho, h]
  · simp [has_object_permission, hno, h, List.any_eq_true]

/-- Witness for C6: an owner views a friends-only image, a stranger views a
public image, and the friends case reduces to the directional edge. -/
theorem C6_can_view_rule_witness :
    has_object_permission [] 5 { id := 1, user := 5, visibility := Visibility.friends } = true ∧
    has_object_permission [] 6 { id := 1, user := 5, visibility := Visibility.public } = true ∧
    (has_object_permission [{ user := 5, friend := 6 }] 6
        { id := 1, user := 5, visibility := Visibility.friends } = true ↔
      ∃ f ∈ [({ user := 5, friend := 6 } : Friendship)], f.user = 5 ∧ f.friend = 6) :=
  ⟨(C6_can_view_rule [] 5 { id := 1, user := 5, visibility := Visibility.friends }).1 rfl,
   (C6_can_view_rule [] 6 { id := 1, user := 5, visibility := Visibility.public }).2.1 rfl,
   (C6_can_view_rule [{ user := 5, friend := 6 }] 6
      { id := 1, user := 5, visibility := Visibility.friends }).2.2 rfl (by decide)⟩

/-! ### Claim C7 -/

/-- C7: accept and reject succeed only when invoked by the request's
receiver and only while the status is pending (otherwise HTTP 400 with no
state change); a successful accept creates both directional Friendship
edges and saves the request as accepted (reject saves it as rejected); and
once a request is accepted or rejected, no sequence of further public
operations ever changes its status again. -/
theorem C7_accept_reject_contract :
    (∀ (currentUser : Nat) (s : FState) (r : FriendRequest),
        r.receiver ≠ currentUser →
          friendrequest_accept currentUser s r = (ActionResult.notReceiver, s) ∧
          friendrequest_reject currentUser s r = (ActionResult.notReceiver, s)) ∧
    (∀ (currentUser : Nat) (s : FState) (r : FriendRequest),
        r.receiver = currentUser → r.status ≠ ReqStatus.pending →
          friendrequest_accept currentUser s r = (ActionResult.alreadyDone r.status, s) ∧
          friendrequest_reject currentUser s r = (ActionResult.alreadyDone r.status, s)) ∧
    (∀ (currentUser : Nat) (s : FState) (r : FriendRequest),
        r.receiver = currentUser → r.status = ReqStatus.pending → r ∈ s.requests →
          (friendrequest_accept currentUser s r).1 = ActionResult.ok ∧
          { user := r.sender, friend := r.receiver }
            ∈ (friendrequest_accept currentUser s r).2.friendships ∧
          { user := r.receiver, friend := r.sender }
            ∈ (friendrequest_accept currentUser s r).2.friendships ∧
          { r with status := ReqStatus.accepted }
            ∈ (friendrequest_accept currentUser s r).2.requests ∧
          (friendrequest_reject currentUser s r).1 = ActionResult.ok ∧
          { r with status := ReqStatus.rejected }
            ∈ (friendrequest_reject currentUser s r).2.requests) ∧
    (∀ (s s' : FState), FReach s → Relation.ReflTransGen FStep s s' →
        ∀ q ∈ s.requests, q.status ≠ ReqStatus.pending →
          ∀ q' ∈ s'.requests, q'.id = q.id → q'.status = q.status) := by
  refine ⟨?_, ?_, ?_, ?_⟩
  · intro currentUser s r h
    constructor <;> simp [friendrequest_accept, friendrequest_reject, h]
  · intro currentUser s r h h2
    constructor <;> simp [friendrequest_accept, friendrequest_reject, h, h2]
  · intro currentUser s r h hp hr
    refine ⟨by simp [friendrequest_accept, h, hp], ?_, ?_, ?_,
            by simp [friendrequest_reject, h, hp], ?_⟩
    · simp [friendrequest_accept, requestAccept, h, hp]
    · simp [friendrequest_accept, requestAccept, h, hp]
    · have hnr : ¬ (r.receiver ≠ currentUser) := by simp [h]
      have hnp : ¬ (r.status ≠ ReqStatus.pending) := by simp [hp]
      simp only [friendrequest_accept, if_neg hnr, if_neg hnp, requestAccept, if_pos hp]
      unfold saveRequest
      exact List.mem_map.mpr ⟨r, hr, by simp⟩
    · have hnr : ¬ (r.receiver ≠ currentUser) := by simp [h]
      have hnp : ¬ (r.status ≠ ReqStatus.pending) := by simp [hp]
      simp only [friendrequest_reject, if_neg hnr, if_neg hnp, requestReject, if_pos hp]
      unfold saveRequest
      exact List.mem_map.mpr ⟨r, hr, by simp⟩
  · intro s s' hreach hsteps q hq hqs q' hq' hid
    have hmem : q ∈ s'.requests := fsteps_row_survives hreach hsteps hq hqs
    have huniq' : UniqueIds s'.requests := freach_uniqueIds (freach_of_steps hreach hsteps)
    rw [huniq' q' hq' q hmem hid]

/-- Witness for C7: rejection of a non-receiver, rejection of an already
accepted request, a successful accept out of a reachable pending state,
and the immutability of the accepted row in that reachable state. -/
theorem C7_accept_reject_contract_witness :
    (friendrequest_accept 3 fsC7sent
        { id := 0, sender := 1, receiver := 2, status := ReqStatus.pending }
      = (ActionResult.notReceiver, fsC7sent)) ∧
    (friendrequest_accept 2 fsC7accepted
        { id := 0, sender := 1, receiver := 2, status := ReqStatus.accepted }
      = (ActionResult.alreadyDone ReqStatus.accepted, fsC7accepted)) ∧
    ((friendrequest_accept 2 fsC7sent
        { id := 0, sender := 1, receiver := 2, status := ReqStatus.pending }).1
      = ActionResult.ok ∧
     ({ user := 1, friend := 2 } : Friendship)
       ∈ (friendrequest_accept 2 fsC7sent
            { id := 0, sender := 1, receiver := 2, status := ReqStatus.pending }).2.friendships ∧
     ({ user := 2, friend := 1 } : Friendship)
       ∈ (friendrequest_accept 2 fsC7sent
            { id := 0, sender := 1, receiver := 2, status := ReqStatus.pending }).2.friendships ∧
     ({ id := 0, sender := 1, receiver := 2, status := ReqStatus.accepted } : FriendRequest)
       ∈ (friendrequest_accept 2 fsC7sent
            { id := 0, sender := 1, receiver := 2, status := ReqStatus.pending }).2.requests) ∧
    (∀ q ∈ fsC7accepted.requests, q.status ≠ ReqStatus.pending →
      ∀ q' ∈ fsC7accepted.requests, q'.id = q.id → q'.status = q.status) := by
  refine ⟨?_, ?_, ?_, ?_⟩
  · exact (C7_accept_reject_contract.1 3 fsC7sent
      { id := 0, sender := 1, receiver := 2, status := ReqStatus.pending } (by decide)).1
  · exact (C7_accept_reject_contract.2.1 2 fsC7accepted
      { id := 0, sender := 1, receiver := 2, status := ReqStatus.accepted } rfl (by decide)).1
  · have h := C7_accept_reject_contract.2.2.1 2 fsC7sent
      { id := 0, sender := 1, receiver := 2, status := ReqStatus.pending } rfl rfl (by decide)
    exact ⟨h.1, h.2.1, h.2.2.1, h.2.2.2.1⟩
  · exact C7_accept_reject_contract.2.2.2 fsC7accepted fsC7accepted
      (FReach.step
        (FReach.step FReach.init
          (FStep.send { friendships := [], requests := [] } 1 2 0 (by simp)))
        (FStep.accept fsC7sent 2
          { id := 0, sender := 1, receiver := 2, status := ReqStatus.pending } (by decide)))
      Relation.ReflTransGen.refl

/-! ### Claim C8 -/

/-- C8: sending a friend request fails with the self-request error when
sender = receiver, with the already-friends error when a sender→receiver
Friendship edge exists, and with the duplicate error when a pending
sender→receiver request exists — each leaving the state unchanged; and
when instead a pending reverse (receiver→sender) request exists, that
reverse request is accepted in place: no new row is created, exactly one
accepted request row between the pair exists afterwards, and exactly one
Friendship edge in each direction exists. -/
theorem C8_send_request_contract :
    (∀ (s : FState) (sender newId : Nat),
        friendrequest_create sender s sender newId = (SendResult.selfRequest, s)) ∧
    (∀ (s : FState) (sender receiver newId : Nat),
        receiver ≠ sender →
        s.friendships.any (fun f => f.user == sender && f.friend == receiver) = true →
        friendrequest_create sender s receiver newId = (SendResult.alreadyFriends, s)) ∧
    (∀ (s : FState) (sender receiver newId : Nat),
        receiver ≠ sender →
        s.friendships.any (fun f => f.user == sender && f.friend == receiver) = false →
        s.requests.any (fun q => q.sender == sender && q.receiver == receiver &&
          q.status == ReqStatus.pending) = true →
        friendrequest_create sender s receiver newId = (SendResult.duplicateRequest, s)) ∧
    (∀ (s : FState) (sender receiver newId : Nat) (reverse : FriendRequest),
        receiver ≠ sender →
        s.friendships.countP (fun f => f.user == sender && f.friend == receiver) = 0 →
        s.friendships.countP (fun f => f.user == receiver && f.friend == sender) = 0 →
        s.requests.any (fun q => q.sender == sender && q.receiver == receiver &&
          q.status == ReqStatus.pending) = false →
        s.requests.find? (fun q => q.sender == receiver && q.receiver == sender &&
          q.status == ReqStatus.pending) = some reverse →
        s.requests.countP (fun q => q.id == reverse.id) = 1 →
        s.requests.countP (fun q =>
          ((q.sender == sender && q.receiver == receiver) ||
           (q.sender == receiver && q.receiver == sender)) &&
          q.status == ReqStatus.accepted) = 0 →
        (friendrequest_create sender s receiver newId).1 = SendResult.autoAccepted ∧
        (friendrequest_create sender s receiver newId).2.requests.length
          = s.requests.length ∧
        (friendrequest_create sender s receiver newId).2.requests.countP (fun q =>
          ((q.sender == sender && q.receiver == receiver) ||
           (q.sender == receiver && q.receiver == sender)) &&
          q.status == ReqStatus.accepted) = 1 ∧
        (friendrequest_create sender s receiver newId).2.friendships.countP
          (fun f => f.user == sender && f.friend == receiver) = 1 ∧
        (friendrequest_create sender s receiver newId).2.friendships.countP
          (fun f => f.user == receiver && f.friend == sender) = 1) := by
  refine ⟨?_, ?_, ?_, ?_⟩
  · intro s sender newId
    simp [friendrequest_create]
  · intro s sender receiver newId hne hedge
    simp [friendrequest_create, hne, hedge]
  · intro s sender receiver newId hne hedge hdup
    simp [friendrequest_create, hne, hedge, hdup]
  · intro s sender receiver newId reverse hne hAB hBA hdup hfind hrevuniq hacc
    obtain ⟨hmem, hs1, hr2, hpend⟩ := reverse_find_props hfind
    have hABfalse : s.friendships.any
        (fun f => f.user == sender && f.friend == receiver) = false := by
      rw [List.any_eq_false]
      exact List.countP_eq_zero.mp hAB
    have hred : friendrequest_create sender s receiver newId
        = (SendResult.autoAccepted, requestAccept s reverse) := by
      simp [friendrequest_create, hne, hABfalse, hdup, hfind]
    have hreq : (requestAccept s reverse).requests
        = saveRequest s.requests { reverse with status := ReqStatus.accepted } := by
      simp [requestAccept, hpend]
    have hfr : (requestAccept s reverse).friendships
        = s.friendships ++
          [{ user := reverse.sender, friend := reverse.receiver },
           { user := reverse.receiver, friend := reverse.sender }] := by
      simp [requestAccept, hpend]
    rw [hred]
    refine ⟨rfl, ?_, ?_, ?_, ?_⟩
    · simp [hreq, saveRequest]
    · rw [hreq]
      unfold saveRequest
      rw [List.countP_map]
      have hsplit := countP_split s.requests (fun q => q.id == reverse.id)
        (fun q => ((fun q : FriendRequest =>
          ((q.sender == sender && q.receiver == receiver) ||
           (q.sender == receiver && q.receiver == sender)) &&
          q.status == ReqStatus.accepted)
          (if q.id == ({ reverse with status := ReqStatus.accepted } : FriendRequest).id
           then { reverse with status := ReqStatus.accepted } else q)))
      rw [show ((fun q : FriendRequest =>
          ((q.sender == sender && q.receiver == receiver) ||
           (q.sender == receiver && q.receiver == sender)) &&
          q.status == ReqStatus.accepted) ∘
          (fun q => if q.id == ({ reverse with status := ReqStatus.accepted } : FriendRequest).id
           then { reverse with status := ReqStatus.accepted } else q))
        = (fun q => ((fun q : FriendRequest =>
          ((q.sender == sender && q.receiver == receiver) ||
           (q.sender == receiver && q.receiver == sender)) &&
          q.status == ReqStatus.accepted)
          (if q.id == ({ reverse with status := ReqStatus.accepted } : FriendRequest).id
           then { reverse with status := ReqStatus.accepted } else q))) from rfl]
      rw [hsplit]
      have hterm1 : s.requests.countP (fun q => (q.id == reverse.id) &&
          ((fun q : FriendRequest =>
            ((q.sender == sender && q.receiver == receiver) ||
             (q.sender == receiver && q.receiver == sender)) &&
            q.status == ReqStatus.accepted)
            (if q.id == ({ reverse with status := ReqStatus.accepted } : FriendRequest).id
             then { reverse with status := ReqStatus.accepted } else q)))
          = s.requests.countP (fun q => q.id == reverse.id) := by
        apply List.countP_congr
        intro q _
        by_cases hc : q.id = reverse.id
        · simp [hc, hs1, hr2]
        · simp [hc]
      have hterm2 : s.requests.countP (fun q => (!(q.id == reverse.id)) &&
          ((fun q : FriendRequest =>
            ((q.sender == sender && q.receiver == receiver) ||
             (q.sender == receiver && q.receiver == sender)) &&
            q.status == ReqStatus.accepted)
            (if q.id == ({ reverse with status := ReqStatus.accepted } : FriendRequest).id
             then { reverse with status := ReqStatus.accepted } else q))) = 0 := by
        have hle := List.countP_mono_left (l := s.requests)
          (p := fun q => (!(q.id == reverse.id)) &&
            ((fun q : FriendRequest =>
              ((q.sender == sender && q.receiver == receiver) ||
               (q.sender == receiver && q.receiver == sender)) &&
              q.status == ReqStatus.accepted)
              (if q.id == ({ reverse with status := ReqStatus.accepted } : FriendRequest).id
               then { reverse with status := ReqStatus.accepted } else q)))
          (q := fun q =>
            ((q.sender == sender && q.receiver == receiver) ||
             (q.sender == receiver && q.receiver == sender)) &&
            q.status == ReqStatus.accepted)
          (by
            intro a _ hpa
            simp only [Bool.and_eq_true, Bool.not_eq_true'] at hpa
            obtain ⟨hid, hrest⟩ := hpa
            simpa [hid] using hrest)
        omega
      rw [hterm1, hterm2, hrevuniq]
    · rw [hfr, List.countP_append, hAB]
      have h1 : (receiver == sender) = false := by simpa using hne
      simp [List.countP_cons, hs1, hr2, h1]
    · rw [hfr, List.countP_append, hBA]
      have h1 : (sender == receiver) = false := by simpa using hne.symm
      simp [List.countP_cons, hs1, hr2, h1]

/-- Witness for C8: the three error paths at tiny states, and the
auto-accept fast path from the spec scenario — B has an earlier pending
request to A, then A requests B. -/
theorem C8_send_request_contract_witness :
    friendrequest_create 1 { friendships := [], requests := [] } 1 5
      = (SendResult.selfRequest, { friendships := [], requests := [] }) ∧
    friendrequest_create 1 { friendships := [{ user := 1, friend := 2 }], requests := [] } 2 5
      = (SendResult.alreadyFriends,
         { friendships := [{ user := 1, friend := 2 }], requests := [] }) ∧
    friendrequest_create 1
        { friendships := [],
          requests := [{ id := 0, sender := 1, receiver := 2, status := ReqStatus.pending }] }
        2 5
      = (SendResult.duplicateRequest,
         { friendships := [],
           requests := [{ id := 0, sender := 1, receiver := 2, status := ReqStatus.pending }] }) ∧
    ((friendrequest_create 1
        { friendships := [],
          requests := [{ id := 0, sender := 2, receiver := 1, status := ReqStatus.pending }] }
        2 5).1 = SendResult.autoAccepted ∧
     (friendrequest_create 1
        { friendships := [],
          requests := [{ id := 0, sender := 2, receiver := 1, status := ReqStatus.pending }] }
        2 5).2.requests.length = 1 ∧
     (friendrequest_create 1
        { friendships := [],
          requests := [{ id := 0, sender := 2, receiver := 1, status := ReqStatus.pending }] }
        2 5).2.requests.countP (fun q =>
          ((q.sender == 1 && q.receiver == 2) || (q.sender == 2 && q.receiver == 1)) &&
          q.status == ReqStatus.accepted) = 1 ∧
     (friendrequest_create 1
        { friendships := [],
          requests := [{ id := 0, sender := 2, receiver := 1, status := ReqStatus.pending }] }
        2 5).2.friendships.countP (fun f => f.user == 1 && f.friend == 2) = 1 ∧
     (friendrequest_create 1
        { friendships := [],
          requests := [{ id := 0, sender := 2, receiver := 1, status := ReqStatus.pending }] }
        2 5).2.friendships.countP (fun f => f.user == 2 && f.friend == 1) = 1) :=
  ⟨C8_send_request_contract.1 { friendships := [], requests := [] } 1 5,
   C8_send_request_contract.2.1
     { friendships := [{ user := 1, friend := 2 }], requests := [] } 1 2 5
     (by decide) (by decide),
   C8_send_request_contract.2.2.1
     { friendships := [],
       requests := [{ id := 0, sender := 1, receiver := 2, status := ReqStatus.pending }] }
     1 2 5 (by decide) (by decide) (by decide),
   C8_send_request_contract.2.2.2
     { friendships := [],
       requests := [{ id := 0, sender := 2, receiver := 1, status := ReqStatus.pending }] }
     1 2 5 { id := 0, sender := 2, receiver := 1, status := ReqStatus.pending }
     (by decide) (by decide) (by decide) (by decide) (by decide) (by decide) (by decide)⟩

/-! ### Claim C9 -/

/-- C9: every reachable Like table has at most one Like per (image, user)
pair, and a second like attempt by the same user on the same image is
rejected with the table unchanged — exactly one row for the pair
persists. -/
theorem C9_like_uniqueness :
    (∀ likes : List LikeRec, LReach likes → ∀ imgId uid : Nat,
        likes.countP (fun x => x.user == uid && x.image == imgId) ≤ 1) ∧
    (∀ (currentUser : Nat) (friendships : List Friendship) (img : GalleryImage)
        (likes : List LikeRec),
        has_object_permission friendships currentUser img = true →
        likes.countP (fun x => x.user == currentUser && x.image == img.id) = 1 →
        like_create currentUser friendships img likes = (LikeResult.alreadyLiked, likes) ∧
        (like_create currentUser friendships img likes).2.countP
          (fun x => x.user == currentUser && x.image == img.id) = 1) := by
  constructor
  · exact fun likes h => lreach_like_at_most_one h
  · intro currentUser friendships img likes hperm hone
    have hany : likes.any (fun x => x.user == currentUser && x.image == img.id) = true := by
      have hpos : 0 < likes.countP (fun x => x.user == currentUser && x.image == img.id) := by
        omega
      obtain ⟨x, hx, hpx⟩ := List.countP_pos_iff.mp hpos
      exact List.any_eq_true.mpr ⟨x, hx, hpx⟩
    constructor
    · simp [like_create, hperm, hany]
    · simp [like_create, hperm, hany, hone]

/-- Witness for C9: the empty reachable table, and a second like by user 1
on image 1 rejected with the single row kept. -/
theorem C9_like_uniqueness_witness :
    ([] : List LikeRec).countP (fun x => x.user == 1 && x.image == 1) ≤ 1 ∧
    like_create 1 [] { id := 1, user := 1, visibility := Visibility.public }
        [{ image := 1, user := 1 }]
      = (LikeResult.alreadyLiked, [{ image := 1, user := 1 }]) ∧
    (like_create 1 [] { id := 1, user := 1, visibility := Visibility.public }
        [{ image := 1, user := 1 }]).2.countP
      (fun x => x.user == 1 && x.image == 1) = 1 :=
  ⟨C9_like_uniqueness.1 [] LReach.init 1 1,
   (C9_like_uniqueness.2 1 [] { id := 1, user := 1, visibility := Visibility.public }
     [{ image := 1, user := 1 }] (by decide) (by decide)).1,
   (C9_like_uniqueness.2 1 [] { id := 1, user := 1, visibility := Visibility.public }
     [{ image := 1, user := 1 }] (by decide) (by decide)).2⟩

end AIGallery
